import Mathlib

/-!
Verification development for the Calo log analyzer (`src/analyzer.py`).

The Python pipeline is shallowly embedded: each pandas-based stage becomes an
executable Lean function over lists; Python `None`/`NaN` cells become `Option`;
Python `float` values extracted from the logs become exact rationals (`ℚ`);
exceptions raised by a stage become `Except.error`.  Timestamps converted by
`pd.to_datetime` are modelled as nanoseconds since the Unix epoch (`Int`),
which is exactly the resolution of the `datetime64[ns]` values the code sorts
on.
-/

namespace CaloLog

/-! ### String helpers (Python `str.strip`, `str.lower`, `in`, `str.split`) -/

/-- Characters stripped by Python `str.strip()` (ASCII whitespace). -/
def pyWs (c : Char) : Bool :=
  c == ' ' || c == '\t' || c == '\n' || c == '\r' || c == '\x0b' || c == '\x0c'

/-- `str.strip()` on a character list. -/
def stripChars (cs : List Char) : List Char :=
  ((cs.dropWhile pyWs).reverse.dropWhile pyWs).reverse

/-- `str.strip()`. -/
def pyStrip (s : String) : String := String.mk (stripChars s.data)

/-- `str.lower()` (ASCII). -/
def lowerStr (s : String) : String := String.mk (s.data.map Char.toLower)

/-- Does `needle` occur at the head of `hay`? -/
def leadsWith : List Char → List Char → Bool
  | [], _ => true
  | _ :: _, [] => false
  | a :: as, b :: bs => a == b && leadsWith as bs

/-- Does `needle` occur anywhere in `hay`?  (Python `needle in hay`.) -/
def hasSub (needle : List Char) : List Char → Bool
  | [] => leadsWith needle []
  | c :: t => leadsWith needle (c :: t) || hasSub needle t

/-- Python `needle in hay` on strings. -/
def strContains (hay needle : String) : Bool := hasSub needle.data hay.data

/-- Python `s.split("\t")`: split at every tab, keeping empty segments. -/
def splitTab : List Char → List (List Char)
  | [] => [[]]
  | c :: rest =>
    let r := splitTab rest
    if c == '\t' then [] :: r
    else
      match r with
      | [] => [[c]]
      | s :: t => (c :: s) :: t

/-! ### The anchored timestamp regular expression

`re.match(r"^(\d{4}-\d{2}-\d{2}T\d{2}:\d{2}:\d{2}\.\d+Z)", log_data)`
is embedded as a character-level matcher.  `anchorRest` consumes the
pattern at position 0 and returns the unconsumed suffix. -/

/-- Consume exactly `n` characters satisfying `p`. -/
def dropExact : Nat → (Char → Bool) → List Char → Option (List Char)
  | 0, _, cs => some cs
  | _ + 1, _, [] => none
  | n + 1, p, c :: cs => if p c then dropExact n p cs else none

/-- Consume one literal character. -/
def dropChar (c : Char) : List Char → Option (List Char)
  | [] => none
  | x :: cs => if x == c then some cs else none

/-- Consume one-or-more characters satisfying `p` (greedy `+`). -/
def dropWhile1 (p : Char → Bool) : List Char → Option (List Char)
  | [] => none
  | c :: cs => if p c then some ((c :: cs).dropWhile p) else none

/-- Match the timestamp anchor at position 0; return the remaining suffix. -/
def anchorRest (cs : List Char) : Option (List Char) := do
  let r ← dropExact 4 Char.isDigit cs
  let r ← dropChar '-' r
  let r ← dropExact 2 Char.isDigit r
  let r ← dropChar '-' r
  let r ← dropExact 2 Char.isDigit r
  let r ← dropChar 'T' r
  let r ← dropExact 2 Char.isDigit r
  let r ← dropChar ':' r
  let r ← dropExact 2 Char.isDigit r
  let r ← dropChar ':' r
  let r ← dropExact 2 Char.isDigit r
  let r ← dropChar '.' r
  let r ← dropWhile1 Char.isDigit r
  dropChar 'Z' r

/-- The capture group of the anchored pattern: the matched prefix. -/
def matchAnchorL (cs : List Char) : Option String :=
  match anchorRest cs with
  | some rest => some (String.mk (cs.take (cs.length - rest.length)))
  | none => none

/-- `re.match` of the timestamp pattern on a string, returning group 1. -/
def matchAnchor (s : String) : Option String := matchAnchorL s.data

/-! ### `pd.to_datetime` on an anchored timestamp string -/

/-- Decimal digits to a natural number. -/
def digitsToNat (ds : List Char) : Nat :=
  ds.foldl (fun a c => a * 10 + (c.toNat - 48)) 0

/-- Fractional-second digits to nanoseconds (`datetime64[ns]` resolution:
digits beyond the ninth are below the representable resolution). -/
def fracToNanos (ds : List Char) : Nat :=
  digitsToNat ((ds.take 9) ++ List.replicate (9 - ds.length) '0')

def isLeapYear (y : Nat) : Bool :=
  (y % 4 == 0 && y % 100 != 0) || y % 400 == 0

def daysInMonth (y mo : Nat) : Nat :=
  if mo == 2 then (if isLeapYear y then 29 else 28)
  else if mo == 4 || mo == 6 || mo == 9 || mo == 11 then 30
  else 31

def validDate (y mo d : Nat) : Bool :=
  1 ≤ mo && mo ≤ 12 && 1 ≤ d && d ≤ daysInMonth y mo

/-- Days from 1970-01-01 to the given Gregorian civil date
(standard civil-from-days era computation). -/
def daysFromCivil (y mo d : Nat) : Int :=
  let yi : Int := (y : Int) - (if mo ≤ 2 then 1 else 0)
  let era : Int := yi.fdiv 400
  let yoe : Int := yi - era * 400
  let mp : Int := ((mo : Int) + 9) % 12
  let doy : Int := (153 * mp + 2).fdiv 5 + (d : Int) - 1
  let doe : Int := yoe * 365 + yoe.fdiv 4 - yoe.fdiv 100 + doy
  era * 146097 + doe - 719468

/-- Largest magnitude of nanoseconds representable by `datetime64[ns]`
(`pd.Timestamp.max.value`; `-2^63` itself is reserved for `NaT`). -/
def pdTimestampBound : Int := 9223372036854775807

/-- `pd.to_datetime` on one string that matched the anchor pattern:
`none` models the raised conversion error (out-of-range month/day/time or a
value outside the `datetime64[ns]` range); `some ns` is the parsed value as
nanoseconds since the epoch. -/
def toDatetimeNs? (ts : String) : Option Int :=
  let cs := ts.data
  match anchorRest cs with
  | none => none
  | some rest =>
    if !rest.isEmpty then none
    else
      let y := digitsToNat (cs.take 4)
      let mo := digitsToNat ((cs.drop 5).take 2)
      let d := digitsToNat ((cs.drop 8).take 2)
      let h := digitsToNat ((cs.drop 11).take 2)
      let mi := digitsToNat ((cs.drop 14).take 2)
      let sec := digitsToNat ((cs.drop 17).take 2)
      let frac := (cs.drop 20).dropLast
      if validDate y mo d && h ≤ 23 && mi ≤ 59 && sec ≤ 59 then
        let ns : Int :=
          (daysFromCivil y mo d * 86400 + ((h * 3600 + mi * 60 + sec : Nat) : Int)) *
            1000000000 + (fracToNanos frac : Int)
        if -pdTimestampBound ≤ ns && ns ≤ pdTimestampBound then some ns else none
      else none

/-! ### `parse_log_data` and `parse_all_logs` -/

/-- One parsed log row (`datetime` is filled in by the batch conversion in
`parse_all_logs`; `parse_log_data` leaves it `none`). -/
structure LogRecord where
  timestamp : Option String
  session_id : Option String
  message_type : Option String
  message : Option String
  datetime : Option Int
  deriving Repr, DecidableEq

/-- Body of `parse_log_data` for a non-null input string. -/
def parseLine (s : String) : LogRecord :=
  let log_data := stripChars s.data
  let segs := splitTab log_data
  { timestamp := matchAnchorL log_data
    session_id := (segs.get? 1).map String.mk
    message_type := (segs.get? 2).map String.mk
    message := (segs.get? 3).map String.mk
    datetime := none }

/-- `parse_log_data`: `None` for an undefined (`pd.isna`) input, otherwise a
record whose absent fields are null. -/
def parse_log_data : Option String → Option LogRecord
  | none => none
  | some s => some (parseLine s)

/-- A Python-style `mapM` over `Except`: stop at the first raised error. -/
def mapME (f : α → Except String β) : List α → Except String (List β)
  | [] => Except.ok []
  | x :: xs =>
    match f x with
    | Except.error e => Except.error e
    | Except.ok y =>
      match mapME f xs with
      | Except.error e => Except.error e
      | Except.ok ys => Except.ok (y :: ys)

/-- Batch `datetime` conversion of one parsed row: a null `timestamp` becomes
`NaT` (`none`) and the row is retained; a non-null `timestamp` that
`pd.to_datetime` cannot convert raises. -/
def convertDatetime (r : LogRecord) : Except String LogRecord :=
  match r.timestamp with
  | none => Except.ok { r with datetime := none }
  | some ts =>
    match toDatetimeNs? ts with
    | some n => Except.ok { r with datetime := some n }
    | none => Except.error ("to_datetime: could not convert " ++ ts)

/-- `parse_all_logs`: parse every raw line, then convert the `timestamp`
column.  When no row was parsed, `pd.DataFrame([])` has no columns at all, so
the column access `parsed_logs["timestamp"]` raises `KeyError`. -/
def parse_all_logs (rawLogs : List String) : Except String (List LogRecord) :=
  let parsed := rawLogs.filterMap (fun l => parse_log_data (some l))
  if parsed.isEmpty then Except.error "KeyError: timestamp"
  else mapME convertDatetime parsed

/-! ### `categorize_message` / `categorize_logs` -/

/-- `categorize_message`, the nested `if`/`elif` chain of the source. -/
def categorize_message (msg : Option String) : String :=
  match msg with
  | none => "other"
  | some m =>
    let ml := lowerStr m
    if strContains ml "processing message" then "processing_message"
    else if strContains ml "start syncing the balance" then "balance_sync_start"
    else if strContains ml "balance is already synced" then "balance_already_synced"
    else if strContains ml "skipping the balance sync" then "balance_sync_skip"
    else if strContains ml "transaction \x7b" then "transaction"
    else if strContains ml "sending slack notification" then "slack_notification"
    else if strContains ml "error" || strContains ml "failed" then "error"
    else if strContains ml "overdraft" then "overdraft"
    else "other"

/-- The spec's view of the categorizer: an explicit ordered list of
(case-insensitive substring predicate, label) pairs. -/
def categoryRules : List ((String → Bool) × String) :=
  [ (fun m => strContains m "processing message", "processing_message"),
    (fun m => strContains m "start syncing the balance", "balance_sync_start"),
    (fun m => strContains m "balance is already synced", "balance_already_synced"),
    (fun m => strContains m "skipping the balance sync", "balance_sync_skip"),
    (fun m => strContains m "transaction \x7b", "transaction"),
    (fun m => strContains m "sending slack notification", "slack_notification"),
    (fun m => strContains m "error" || strContains m "failed", "error"),
    (fun m => strContains m "overdraft", "overdraft") ]

/-- First rule whose predicate matches wins; no rule matches gives `other`. -/
def firstMatchLabel : List ((String → Bool) × String) → String → String
  | [], _ => "other"
  | r :: rest, m => if r.1 m then r.2 else firstMatchLabel rest m

/-- The categorizer as the spec words it (ordered first-match rule list over a
lowercased message, null message gives `other`). -/
def categorizeSpec (msg : Option String) : String :=
  match msg with
  | none => "other"
  | some m => firstMatchLabel categoryRules (lowerStr m)

/-- The fixed category taxonomy. -/
def categoryLabels : List String :=
  ["processing_message", "balance_sync_start", "balance_already_synced",
   "balance_sync_skip", "transaction", "slack_notification", "error",
   "overdraft", "other"]

deriving instance DecidableEq for Except

/-- A categorized record. -/
structure CatRecord extends LogRecord where
  message_category : String
  deriving Repr, DecidableEq

/-- `categorize_logs`: attach `message_category` to every parsed record. -/
def categorize_logs (recs : List LogRecord) : List CatRecord :=
  recs.map (fun r => { r with message_category := categorize_message r.message })

/-- Keep the first occurrence of each element (`pd.unique` order). -/
def uniqueFirstAux [DecidableEq α] (seen : List α) : List α → List α
  | [] => []
  | x :: r =>
    if x ∈ seen then uniqueFirstAux seen r
    else x :: uniqueFirstAux (x :: seen) r

/-- `pd.unique`: distinct values in order of first appearance. -/
def uniqueFirst [DecidableEq α] (l : List α) : List α := uniqueFirstAux [] l

/-- `Series.value_counts()`: distinct values with their multiplicities,
sorted by count descending. -/
def value_counts (l : List String) : List (String × Nat) :=
  List.insertionSort (fun a b => b.2 ≤ a.2)
    ((uniqueFirst l).map (fun c => (c, l.count c)))

/-! ### `extract_transactions`

The eight field patterns are embedded as character-level scanners with
`re.search` semantics: try the pattern at every position, leftmost match
wins.  Quoted fields use `"key":"([^"]+)"`; numeric fields use
`"key":([\d.]+)` (or `[\d.-]+` for `userBalance`), whose captured text is
then run through Python `float()`, which can raise. -/

/-- Consume an exact literal; return the unconsumed suffix. -/
def dropLit : List Char → List Char → Option (List Char)
  | [], cs => some cs
  | _ :: _, [] => none
  | p :: ps, c :: cs => if p == c then dropLit ps cs else none

/-- Greedy run of characters satisfying `p`: (run, rest). -/
def takeGreedy (p : Char → Bool) : List Char → List Char × List Char
  | [] => ([], [])
  | c :: cs =>
    if p c then
      let r := takeGreedy p cs
      (c :: r.1, r.2)
    else ([], c :: cs)

/-- Match `"key":"([^"]+)"` at the current position: a non-empty greedy run
of non-quote characters that is closed by a quote. -/
def quotedValueAt (key : List Char) (cs : List Char) : Option String :=
  match dropLit ('"' :: key ++ ['"', ':', '"']) cs with
  | none => none
  | some r =>
    match takeGreedy (fun c => c != '"') r with
    | (c1 :: cap, '"' :: _) => some (String.mk (c1 :: cap))
    | _ => none

/-- Match `"key":(CLASS+)` at the current position. -/
def numValueAt (key : List Char) (cls : Char → Bool) (cs : List Char) : Option String :=
  match dropLit ('"' :: key ++ ['"', ':']) cs with
  | none => none
  | some r =>
    let cap := takeGreedy cls r
    if cap.1.isEmpty then none else some (String.mk cap.1)

/-- `re.search`: try the position matcher at each successive position. -/
def searchPositions (f : List Char → Option String) : List Char → Option String
  | [] => f []
  | c :: cs =>
    match f (c :: cs) with
    | some v => some v
    | none => searchPositions f cs

/-- `re.search('"key":"([^"]+)"', msg)`. -/
def reSearchQuoted (key msg : String) : Option String :=
  searchPositions (quotedValueAt key.data) msg.data

/-- `re.search('"key":(CLASS+)', msg)`. -/
def reSearchNum (key : String) (cls : Char → Bool) (msg : String) : Option String :=
  searchPositions (numValueAt key.data cls) msg.data

/-- The character class `[\d.]+` of the `amount` / `vat` patterns. -/
def amountClass (c : Char) : Bool := c.isDigit || c == '.'

/-- The character class `[\d.-]+` of the `userBalance` pattern. -/
def balanceClass (c : Char) : Bool := c.isDigit || c == '.' || c == '-'

/-- The rational `±(ip.fp)` denoted by a sign and decimal digit groups. -/
def ratOfDecimal (neg : Bool) (ip fp : List Char) : ℚ :=
  let m : Int := (digitsToNat (ip ++ fp) : Int)
  mkRat (if neg then -m else m) (10 ^ fp.length)

/-- Python `float()` on the sign-stripped body: `digits`, `digits.digits`,
`digits.`, or `.digits`; anything else raises (`none`). -/
def pyFloatBody (neg : Bool) (cs : List Char) : Option ℚ :=
  let ip := takeGreedy Char.isDigit cs
  match ip.2 with
  | [] => if ip.1.isEmpty then none else some (ratOfDecimal neg ip.1 [])
  | '.' :: r2 =>
    let fp := takeGreedy Char.isDigit r2
    if fp.2.isEmpty then
      if ip.1.isEmpty && fp.1.isEmpty then none
      else some (ratOfDecimal neg ip.1 fp.1)
    else none
  | _ => none

/-- Python `float()` on the strings the numeric character classes can
capture (digits, dots, and for `userBalance` dashes; no exponents or
whitespace can occur in a capture). -/
def pyFloat? (s : String) : Option ℚ :=
  match s.data with
  | '-' :: rest => pyFloatBody true rest
  | cs => pyFloatBody false cs

/-- An extracted transaction row (the `tx_data` dict). -/
structure Tx where
  timestamp : Option String
  datetime : Option Int
  session_id : Option String
  id : Option String
  type : Option String
  source : Option String
  action : Option String
  amount : Option ℚ
  vat : Option ℚ
  userBalance : Option ℚ
  userId : Option String
  deriving Repr, DecidableEq

/-- Python `str()` on a message cell (`str(None)` is the string `None`). -/
def pyStr : Option String → String
  | none => "None"
  | some s => s

/-- `float(match.group(1))` on an optional numeric capture: no capture
degrades to null, a capture that `float()` rejects raises. -/
def floatField : Option String → Except String (Option ℚ)
  | none => Except.ok none
  | some s =>
    match pyFloat? s with
    | some q => Except.ok (some q)
    | none => Except.error ("could not convert string to float: " ++ s)

/-- The per-record field-extraction loop of `extract_transactions`, applying
the eight patterns in the source dict order (`float()` conversion can raise
at `amount`, `vat` or `userBalance`). -/
def extract_tx_fields (log : CatRecord) : Except String Tx :=
  let msg := pyStr log.message
  match floatField (reSearchNum "amount" amountClass msg) with
  | Except.error e => Except.error e
  | Except.ok amountv =>
    match floatField (reSearchNum "vat" amountClass msg) with
    | Except.error e => Except.error e
    | Except.ok vatv =>
      match floatField (reSearchNum "userBalance" balanceClass msg) with
      | Except.error e => Except.error e
      | Except.ok balancev =>
        Except.ok
          { timestamp := log.timestamp
            datetime := log.datetime
            session_id := log.session_id
            id := reSearchQuoted "id" msg
            type := reSearchQuoted "type" msg
            source := reSearchQuoted "source" msg
            action := reSearchQuoted "action" msg
            amount := amountv
            vat := vatv
            userBalance := balancev
            userId := reSearchQuoted "userId" msg }

/-- The retention test `if tx_data.get("id") and tx_data.get("amount") is not
None` (Python truthiness on the `id` string, `is not None` on `amount`). -/
def keepTx (t : Tx) : Bool :=
  (match t.id with
   | none => false
   | some s => s != "") && t.amount.isSome

/-- `extract_transactions`: run field extraction over every
transaction-category record, silently dropping candidates that fail the
retention test. -/
def extract_transactions (logs : List CatRecord) : Except String (List Tx) :=
  let txLogs := logs.filter (fun l => l.message_category == "transaction")
  match mapME extract_tx_fields txLogs with
  | Except.error e => Except.error e
  | Except.ok cands => Except.ok (cands.filter keepTx)

/-! ### `detect_overdrafts` -/

/-- `transactions["userBalance"] < 0` on one row (`NaN < 0` is false). -/
def negPred (t : Tx) : Bool :=
  match t.userBalance with
  | some b => decide (b < 0)
  | none => false

/-- `(userBalance >= 0) & (userBalance < 10)` on one row (false on `NaN`). -/
def lowPred (t : Tx) : Bool :=
  match t.userBalance with
  | some b => decide (0 ≤ b) && decide (b < 10)
  | none => false

/-- `Series.nunique()`: distinct non-null values. -/
def nunique (l : List (Option String)) : Nat := (l.filterMap id).dedup.length

structure OverdraftStats where
  negative_balance_count : Nat
  low_balance_count : Nat
  at_risk_users : Nat
  deriving Repr, DecidableEq

/-- `detect_overdrafts`.  The guard in the source is
`not transactions.empty and "userBalance" in transactions.columns`; a
non-empty extracted table always carries the `userBalance` column (every
`tx_data` dict has the key), so the guard reduces to non-emptiness. -/
def detect_overdrafts (txs : List Tx) : OverdraftStats :=
  if txs.isEmpty then ⟨0, 0, 0⟩
  else
    let negative_balances := txs.filter negPred
    let low_balances := txs.filter lowPred
    ⟨negative_balances.length, low_balances.length,
      nunique (low_balances.map (fun t => t.userId))⟩

/-- The emitted `overdrafts` table (negative-balance subset, or empty). -/
def overdraft_table (txs : List Tx) : List Tx :=
  if txs.isEmpty then [] else txs.filter negPred

/-! ### `analyze_user_patterns` -/

/-- pandas `Series.min()`: minimum of the non-null values (`NaN`, modelled
`none`, when there are none). -/
def pandasMin : List ℚ → Option ℚ
  | [] => none
  | x :: xs => some (xs.foldl min x)

/-- pandas `Series.max()`. -/
def pandasMax : List ℚ → Option ℚ
  | [] => none
  | x :: xs => some (xs.foldl max x)

/-- Comparison of `datetime` cells for `sort_values("datetime")`: ascending,
with `NaT` (`none`) sorting after every defined value (pandas default
`na_position="last"`). -/
def dtLEb : Option Int → Option Int → Bool
  | some x, some y => decide (x ≤ y)
  | some _, none => true
  | none, some _ => false
  | none, none => true

/-- The row order produced by `sort_values("datetime")`. -/
def txLE (a b : Tx) : Prop := dtLEb a.datetime b.datetime = true

instance : DecidableRel txLE := fun a b =>
  inferInstanceAs (Decidable (dtLEb a.datetime b.datetime = true))

instance : IsTotal Tx txLE :=
  ⟨fun a b => by
    unfold txLE
    cases ha : a.datetime <;> cases hb : b.datetime <;> (simp [dtLEb]; try omega)⟩

instance : IsTrans Tx txLE :=
  ⟨fun a b c h1 h2 => by
    unfold txLE at h1 h2 ⊢
    cases ha : a.datetime <;> cases hb : b.datetime <;> cases hc : c.datetime <;>
      (simp_all [dtLEb]; try omega)⟩

/-- `DataFrame.sort_values("datetime")` (ascending, `NaT` last). -/
def sort_values_datetime (txs : List Tx) : List Tx := List.insertionSort txLE txs

/-- One row of the exported user table. -/
structure UserSummary where
  user_id : String
  transaction_count : Nat
  credit_count : Nat
  debit_count : Nat
  total_credits : ℚ
  total_debits : ℚ
  min_balance : Option ℚ
  max_balance : Option ℚ
  current_balance : Option ℚ
  first_transaction : Option String
  last_transaction : Option String
  overdraft_flag : Bool
  deriving Repr, DecidableEq

/-- The `user_stats` dict built for one user id. -/
def userSummaryFor (txs : List Tx) (uid : String) : UserSummary :=
  let user_txs := sort_values_datetime (txs.filter (fun t => t.userId == some uid))
  let credits := user_txs.filter (fun t => t.type == some "CREDIT")
  let debits := user_txs.filter (fun t => t.type == some "DEBIT")
  let balances := user_txs.filterMap (fun t => t.userBalance)
  let minb := pandasMin balances
  { user_id := uid
    transaction_count := user_txs.length
    credit_count := credits.length
    debit_count := debits.length
    total_credits := (credits.filterMap (fun t => t.amount)).sum
    total_debits := (debits.filterMap (fun t => t.amount)).sum
    min_balance := minb
    max_balance := pandasMax balances
    current_balance := (user_txs.getLast?).bind (fun t => t.userBalance)
    first_transaction := (user_txs.head?).bind (fun t => t.timestamp)
    last_transaction := (user_txs.getLast?).bind (fun t => t.timestamp)
    overdraft_flag :=
      match minb with
      | some m => decide (m < 0)
      | none => false }

/-- `analyze_user_patterns`: one summary row per distinct non-null `userId`,
in order of first appearance. -/
def analyze_user_patterns (txs : List Tx) : List UserSummary :=
  if txs.isEmpty then []
  else
    (uniqueFirst (txs.map (fun t => t.userId))).filterMap (fun ou =>
      match ou with
      | none => none
      | some uid =>
        if (txs.filter (fun t => t.userId == some uid)).isEmpty then none
        else some (userSummaryFor txs uid))

/-! ### `export_results` percentages and the whole pipeline -/

/-- The `Percentage` column: `Count / Count.sum() * 100`. -/
def percentages (stats : List (String × Nat)) : List ℚ :=
  let total : ℚ := ((stats.map (fun p => p.2)).sum : Nat)
  stats.map (fun p => (p.2 : ℚ) / total * 100)

structure AnalysisResults where
  category_stats : List (String × Nat)
  transactions : List Tx
  overdraft_stats : OverdraftStats
  user_analysis : List UserSummary
  deriving Repr, DecidableEq

/-- `run_complete_analysis` over an already-materialized list of raw
(INFO-filtered) lines. -/
def run_pipeline (rawLogs : List String) : Except String AnalysisResults :=
  match parse_all_logs rawLogs with
  | Except.error e => Except.error e
  | Except.ok parsed =>
    let cats := categorize_logs parsed
    let stats := value_counts (cats.map (fun c => c.message_category))
    match extract_transactions cats with
    | Except.error e => Except.error e
    | Except.ok txs =>
      Except.ok
        { category_stats := stats
          transactions := txs
          overdraft_stats := detect_overdrafts txs
          user_analysis := analyze_user_patterns txs }

/-! ### Helper lemmas -/

theorem mapME_ok_mem {f : α → Except String β} :
    ∀ {xs : List α} {ys : List β}, mapME f xs = Except.ok ys →
      ∀ {x : α}, x ∈ xs → ∃ y, f x = Except.ok y ∧ y ∈ ys := by
  intro xs
  induction xs with
  | nil => intro ys _ x hx; cases hx
  | cons a as ih =>
    intro ys h x hx
    unfold mapME at h
    cases hfa : f a with
    | error e => rw [hfa] at h; cases h
    | ok y =>
      rw [hfa] at h
      cases hrest : mapME f as with
      | error e => rw [hrest] at h; cases h
      | ok ys2 =>
        rw [hrest] at h
        cases h
        cases hx with
        | head => exact ⟨y, hfa, List.mem_cons_self _ _⟩
        | tail _ hx2 =>
          obtain ⟨y2, hy2, hy2mem⟩ := ih hrest hx2
          exact ⟨y2, hy2, List.mem_cons_of_mem _ hy2mem⟩

theorem mapME_error_of_mem {f : α → Except String β} {x : α} :
    ∀ {xs : List α}, x ∈ xs → (∀ y, f x ≠ Except.ok y) →
      ∃ e, mapME f xs = Except.error e := by
  intro xs
  induction xs with
  | nil => intro hx; cases hx
  | cons a as ih =>
    intro hx hfail
    unfold mapME
    cases hfa : f a with
    | error e => exact ⟨e, rfl⟩
    | ok y =>
      cases hx with
      | head => exact absurd hfa (hfail y)
      | tail _ hx2 =>
        obtain ⟨e, he⟩ := ih hx2 hfail
        rw [he]
        exact ⟨e, rfl⟩

theorem searchPositions_some {f : List Char → Option String} :
    ∀ {cs : List Char} {v : String}, searchPositions f cs = some v →
      ∃ ds, f ds = some v := by
  intro cs
  induction cs with
  | nil => intro v h; exact ⟨[], h⟩
  | cons c cs ih =>
    intro v h
    unfold searchPositions at h
    cases hf : f (c :: cs) with
    | some w => rw [hf] at h; cases h; exact ⟨c :: cs, hf⟩
    | none => rw [hf] at h; exact ih h

theorem quotedValueAt_ne_empty {key cs : List Char} {v : String}
    (h : quotedValueAt key cs = some v) : v ≠ "" := by
  unfold quotedValueAt at h
  split at h
  · cases h
  · split at h
    · cases h
      intro habs
      have := congrArg String.data habs
      simp at this
    · cases h

theorem reSearchQuoted_ne_empty {key msg : String} {v : String}
    (h : reSearchQuoted key msg = some v) : v ≠ "" := by
  obtain ⟨ds, hds⟩ := searchPositions_some h
  exact quotedValueAt_ne_empty hds

theorem extract_tx_fields_ok_id {log : CatRecord} {t : Tx}
    (h : extract_tx_fields log = Except.ok t) :
    t.id = reSearchQuoted "id" (pyStr log.message) := by
  simp only [extract_tx_fields] at h
  split at h
  · cases h
  · split at h
    · cases h
    · split at h
      · cases h
      · cases h
        rfl

/-! ### Claims -/

/-- **C1.**  For every transaction-category record, the extracted candidate
appears in the final transaction table if and only if both its `id` field and
its `amount` field are non-null; a candidate lacking either is excluded
entirely (the run that produced the table raised no error, and exclusion is
silent: `extract_transactions` returns `ok`, never an error, for a dropped
candidate). -/
theorem tx_retained_iff (logs : List CatRecord) (txs : List Tx)
    (hok : extract_transactions logs = Except.ok txs)
    (log : CatRecord) (hmem : log ∈ logs)
    (hcat : log.message_category = "transaction")
    (cand : Tx) (hcand : extract_tx_fields log = Except.ok cand) :
    cand ∈ txs ↔ (cand.id ≠ none ∧ cand.amount ≠ none) := by
  simp only [extract_transactions] at hok
  cases hm : mapME extract_tx_fields
      (logs.filter fun l => l.message_category == "transaction") with
  | error e => rw [hm] at hok; cases hok
  | ok cands =>
    rw [hm] at hok
    cases hok
    constructor
    · intro hmemtx
      have hkeep := List.of_mem_filter hmemtx
      unfold keepTx at hkeep
      have h1 := (Bool.and_eq_true _ _).mp hkeep
      constructor
      · cases hid : cand.id with
        | none => rw [hid] at h1; simp at h1
        | some s => simp
      · cases hamt : cand.amount with
        | none => rw [hamt] at h1; simp at h1
        | some q => simp
    · rintro ⟨hid, hamt⟩
      have hlogmem : log ∈ logs.filter (fun l => l.message_category == "transaction") :=
        List.mem_filter.mpr ⟨hmem, by simp [hcat]⟩
      obtain ⟨y, hy, hymem⟩ := mapME_ok_mem hm hlogmem
      rw [hcand] at hy
      cases hy
      refine List.mem_filter.mpr ⟨hymem, ?_⟩
      unfold keepTx
      cases hidv : cand.id with
      | none => exact absurd hidv hid
      | some s =>
        have hproj := extract_tx_fields_ok_id hcand
        rw [hidv] at hproj
        have hsne : s ≠ "" := reSearchQuoted_ne_empty hproj.symm
        cases hamtv : cand.amount with
        | none => exact absurd hamtv hamt
        | some q => simp [hsne]

def wLogFull : CatRecord :=
  { timestamp := some "2024-01-01T10:00:00.123Z", session_id := some "s1",
    message_type := some "INFO",
    message := some "Transaction \x7b\"id\":\"tx1\",\"type\":\"CREDIT\",\"amount\":50.0,\"userBalance\":-5.0,\"userId\":\"u1\"\x7d",
    datetime := some 1704103200123000000, message_category := "transaction" }

def wLogNoId : CatRecord :=
  { timestamp := none, session_id := none, message_type := some "INFO",
    message := some "Transaction \x7b\"amount\":50.0\x7d", datetime := none,
    message_category := "transaction" }

def wTxFull : Tx :=
  { timestamp := some "2024-01-01T10:00:00.123Z", datetime := some 1704103200123000000,
    session_id := some "s1", id := some "tx1", type := some "CREDIT",
    source := none, action := none, amount := some 50, vat := none,
    userBalance := some (-5), userId := some "u1" }

/-- Witness for C1 at a concrete input: of two transaction-category records,
the one with `id` and `amount` appears in the table (and the table is exactly
that one candidate: the `id`-less record was dropped). -/
theorem tx_retained_iff_witness :
    extract_transactions [wLogFull, wLogNoId] = Except.ok [wTxFull] ∧ wTxFull ∈ [wTxFull] := by
  have hiff := tx_retained_iff [wLogFull, wLogNoId] [wTxFull] (by decide)
    wLogFull (by decide) (by decide) wTxFull (by decide)
  exact ⟨by decide, hiff.mpr ⟨by decide, by decide⟩⟩

/-- A transaction-category record whose `amount` value is the digit-free
string `.` (the pattern class `[\d.]+` can capture it; `float()` rejects it). -/
def recDot : CatRecord :=
  { timestamp := none, session_id := none, message_type := some "INFO",
    message := some "Transaction \x7b\"amount\":.\x7d", datetime := none,
    message_category := "transaction" }

/-- **C10.**  There exists a transaction-category message (here
`Transaction {"amount":.}`) on which extraction raises: the category really is
`transaction`, the amount pattern captures `.`, and `extract_transactions`
returns an error rather than a table. -/
theorem extract_transactions_not_total :
    categorize_message recDot.message = "transaction"
    ∧ recDot.message_category = categorize_message recDot.message
    ∧ reSearchNum "amount" amountClass (pyStr recDot.message) = some "."
    ∧ extract_transactions [recDot] = Except.error "could not convert string to float: ." := by
  refine ⟨by decide, by decide, by decide, by decide⟩

/-- **C4.**  On an empty input (zero raw lines) the pipeline does NOT degrade
gracefully: `pd.DataFrame([])` has no columns, so the column access
`parsed_logs["timestamp"]` in `parse_all_logs` raises `KeyError` and the run
halts before any statistic is computed.  (This refutes the claim that no
fatal error is raised; the claim matches the intent visible in the code's own
empty-table branches, so the failure is a code bug.) -/
theorem pipeline_empty_input_raises :
    parse_all_logs [] = Except.error "KeyError: timestamp"
    ∧ run_pipeline [] = Except.error "KeyError: timestamp" :=
  ⟨rfl, rfl⟩

/-- **C2.**  The categorizer evaluates the fixed ordered list of
case-insensitive substring predicates and returns the label of the first
predicate that matches (`categorizeSpec` is that rule list, written as the
spec words it); a null/undefined message always yields `other`; the result is
never null (it is always one of the nine labels of the taxonomy). -/
theorem categorize_message_spec (msg : Option String) :
    categorize_message msg = categorizeSpec msg
    ∧ categorize_message none = "other"
    ∧ categorize_message msg ∈ categoryLabels := by
  refine ⟨?_, rfl, ?_⟩
  · cases msg with
    | none => rfl
    | some m => rfl
  · cases msg with
    | none => simp [categorize_message, categoryLabels]
    | some m =>
      simp only [categorize_message, categoryLabels]
      repeat' split
      all_goals simp

/-- **C7.**  For any line of the batch: if its (stripped) text matches the
anchored timestamp pattern but the matched string cannot be converted by
`pd.to_datetime`, the whole batch conversion raises (fatal); whereas if the
anchor does not match, the line is parsed with a null timestamp and — when
the batch succeeds — its record is retained with a null `datetime`. -/
theorem convertDatetime_fails {r : LogRecord} {ts : String}
    (h1 : r.timestamp = some ts) (h2 : toDatetimeNs? ts = none) :
    ∀ y, convertDatetime r ≠ Except.ok y := by
  intro y hy
  unfold convertDatetime at hy
  split at hy
  · rename_i heq
    rw [h1] at heq
    cases heq
  · rename_i ts2 heq
    rw [h1] at heq
    cases heq
    split at hy
    · rename_i n heq2
      rw [heq2] at h2
      cases h2
    · cases hy

theorem convertDatetime_none {r : LogRecord} (h1 : r.timestamp = none) :
    convertDatetime r = Except.ok { r with datetime := none } := by
  unfold convertDatetime
  split
  · rfl
  · rename_i ts2 heq
    rw [h1] at heq
    cases heq

theorem timestamp_conversion_fatal (lines : List String) (l : String)
    (hmem : l ∈ lines) :
    (∀ ts, matchAnchor (pyStrip l) = some ts → toDatetimeNs? ts = none →
       ∃ e, parse_all_logs lines = Except.error e)
    ∧ (matchAnchor (pyStrip l) = none →
       ∀ recs, parse_all_logs lines = Except.ok recs →
         parseLine l ∈ recs ∧ (parseLine l).timestamp = none
           ∧ (parseLine l).datetime = none) := by
  have hparsed : parseLine l ∈ lines.filterMap (fun x => parse_log_data (some x)) :=
    List.mem_filterMap.mpr ⟨l, hmem, rfl⟩
  have hts : (parseLine l).timestamp = matchAnchor (pyStrip l) := rfl
  constructor
  · intro ts hanch hbad
    simp only [parse_all_logs]
    rw [if_neg ?_]
    · exact mapME_error_of_mem hparsed
        (convertDatetime_fails (hts.trans hanch) hbad)
    · intro hemp
      rw [List.isEmpty_iff] at hemp
      rw [hemp] at hparsed
      cases hparsed
  · intro hanch recs hok
    simp only [parse_all_logs] at hok
    split at hok
    · cases hok
    · obtain ⟨y, hy, hymem⟩ := mapME_ok_mem hok hparsed
      have hconv : convertDatetime (parseLine l) = Except.ok (parseLine l) :=
        convertDatetime_none (hts.trans hanch)
      rw [hconv] at hy
      cases hy
      exact ⟨hymem, hts.trans hanch, rfl⟩

/-- Witness for C7: the batch containing month-13 timestamp
`2024-13-01T10:00:00.123Z` (anchor matches, conversion impossible) raises,
while the anchorless line `hello` is retained with null timestamp. -/
theorem timestamp_conversion_fatal_witness :
    (∃ e, parse_all_logs ["2024-13-01T10:00:00.123Z\ts1\tINFO\thello"] = Except.error e)
    ∧ parseLine "hello" ∈ [parseLine "hello"]
    ∧ (parseLine "hello").timestamp = none := by
  constructor
  · exact (timestamp_conversion_fatal ["2024-13-01T10:00:00.123Z\ts1\tINFO\thello"]
      "2024-13-01T10:00:00.123Z\ts1\tINFO\thello" (by decide)).1
      "2024-13-01T10:00:00.123Z" (by decide) (by decide)
  · have h2 := (timestamp_conversion_fatal ["hello"] "hello" (by decide)).2
      (by decide) [parseLine "hello"] (by decide)
    exact ⟨h2.1, h2.2.1⟩

/-- **C8 counterexample.**  The record parser does NOT return nothing on an
empty line: `pd.isna("")` is false, so the empty string is parsed into a
record whose four fields are all null (only an undefined/NaN cell yields
nothing). -/
theorem parse_log_data_empty_line :
    parse_log_data (some "") =
      some { timestamp := none, session_id := none, message_type := none,
             message := none, datetime := none }
    ∧ parse_log_data (some "") ≠ none := ⟨by decide, by decide⟩

/-- **C8 (amended).**  The record parser returns nothing only for an
undefined (`pd.isna`) input; every string input — the empty string included —
yields a record and never raises: the timestamp is null when the anchored
pattern does not match at position 0, and each missing tab-delimited segment
(session_id, message_type, message) degrades to null. -/
theorem parse_log_data_total (s : String) :
    parse_log_data none = none
    ∧ parse_log_data (some s) = some (parseLine s)
    ∧ (parseLine s).timestamp = matchAnchor (pyStrip s)
    ∧ ((splitTab (stripChars s.data)).length ≤ 1 → (parseLine s).session_id = none)
    ∧ ((splitTab (stripChars s.data)).length ≤ 2 → (parseLine s).message_type = none)
    ∧ ((splitTab (stripChars s.data)).length ≤ 3 → (parseLine s).message = none) := by
  refine ⟨rfl, rfl, rfl, ?_, ?_, ?_⟩
  all_goals intro h
  all_goals simp only [parseLine]
  · rw [List.get?_eq_none.mpr h]
    rfl
  · rw [List.get?_eq_none.mpr h]
    rfl
  · rw [List.get?_eq_none.mpr h]
    rfl

/-- Witness for C8 (amended) at the concrete line `x`: parsed to a record,
with null timestamp and null segments. -/
theorem parse_log_data_total_witness :
    parse_log_data (some "x") = some (parseLine "x")
    ∧ (parseLine "x").timestamp = none
    ∧ (parseLine "x").session_id = none
    ∧ (parseLine "x").message_type = none
    ∧ (parseLine "x").message = none := by
  have h := parse_log_data_total "x"
  refine ⟨h.2.1, ?_, h.2.2.2.1 (by decide), h.2.2.2.2.1 (by decide), h.2.2.2.2.2 (by decide)⟩
  rw [h.2.2.1]
  decide

/-! ### C3: per-user sort order -/

def cNaT : Tx :=
  { timestamp := none, datetime := none, session_id := some "s1",
    id := some "t1", type := some "CREDIT", source := none, action := none,
    amount := some 50, vat := none, userBalance := some 5, userId := some "u1" }

def cEarly : Tx :=
  { timestamp := some "2024-01-01T10:00:00.123Z", datetime := some 0,
    session_id := some "s1", id := some "t2", type := some "DEBIT", source := none,
    action := none, amount := some 20, vat := none, userBalance := some (-7),
    userId := some "u1" }

/-- **C3 counterexample.**  A record with undefined `datetime` does NOT sort
as least-recent: with one undefined-datetime and one defined-datetime
transaction for user `u1`, `sort_values("datetime")` puts the undefined one
LAST (pandas `na_position="last"`), so `first_transaction` is the defined
record's timestamp (not the undefined record's null timestamp, as the claim
would have it) and `current_balance` comes from the undefined-datetime
record. -/
theorem user_sort_undefined_first_counterexample :
    sort_values_datetime [cNaT, cEarly] = [cEarly, cNaT]
    ∧ (userSummaryFor [cNaT, cEarly] "u1").first_transaction = cEarly.timestamp
    ∧ (userSummaryFor [cNaT, cEarly] "u1").first_transaction ≠ cNaT.timestamp
    ∧ (userSummaryFor [cNaT, cEarly] "u1").current_balance = cNaT.userBalance
    ∧ (userSummaryFor [cNaT, cEarly] "u1").current_balance ≠ cEarly.userBalance := by
  refine ⟨by decide, ?_, ?_, ?_, ?_⟩
  all_goals with_unfolding_all decide

/-- **C3 (amended).**  For every user, the aggregator sorts that user's
transactions by `datetime` ascending with records of undefined `datetime`
placed AFTER all records with a defined `datetime` (pandas default
`na_position="last"`; `dtLEb` orders defined values ascending and `none`
last); the sorted list is a permutation of the user's transactions, and
`first_transaction`/`last_transaction`/`current_balance` are taken from the
first/last record of this order. -/
theorem user_sort_spec (txs : List Tx) (uid : String) :
    List.Pairwise txLE (sort_values_datetime (txs.filter (fun t => t.userId == some uid)))
    ∧ (sort_values_datetime (txs.filter (fun t => t.userId == some uid))).Perm
        (txs.filter (fun t => t.userId == some uid))
    ∧ (userSummaryFor txs uid).first_transaction =
        ((sort_values_datetime (txs.filter (fun t => t.userId == some uid))).head?).bind
          (fun t => t.timestamp)
    ∧ (userSummaryFor txs uid).last_transaction =
        ((sort_values_datetime (txs.filter (fun t => t.userId == some uid))).getLast?).bind
          (fun t => t.timestamp)
    ∧ (userSummaryFor txs uid).current_balance =
        ((sort_values_datetime (txs.filter (fun t => t.userId == some uid))).getLast?).bind
          (fun t => t.userBalance) :=
  ⟨List.sorted_insertionSort txLE _, List.perm_insertionSort txLE _, rfl, rfl, rfl⟩

/-! ### C5: overdraft detection -/

theorem negPred_iff (t : Tx) :
    negPred t = true ↔ ∃ b, t.userBalance = some b ∧ b < 0 := by
  cases h : t.userBalance with
  | none => simp [negPred, h]
  | some b => simp [negPred, h]

theorem lowPred_iff (t : Tx) :
    lowPred t = true ↔ ∃ b, t.userBalance = some b ∧ 0 ≤ b ∧ b < 10 := by
  cases h : t.userBalance with
  | none => simp [lowPred, h]
  | some b => simp [lowPred, h]

/-- **C5.**  The overdraft detector selects, among transactions with non-null
`userBalance`, the negative-balance set (`userBalance < 0`) and the
low-balance set (`0 <= userBalance < 10`); the two sets are disjoint;
transactions with null balance belong to neither; the reported counts are the
sizes of these sets and `at_risk_users` is the number of distinct non-null
`userId` values among the low-balance set; and on an empty transaction table
all three counts are zero without error. -/
theorem detect_overdrafts_spec (txs : List Tx) :
    (∀ t, t ∈ txs.filter negPred ↔ t ∈ txs ∧ ∃ b, t.userBalance = some b ∧ b < 0)
    ∧ (∀ t, t ∈ txs.filter lowPred ↔ t ∈ txs ∧ ∃ b, t.userBalance = some b ∧ 0 ≤ b ∧ b < 10)
    ∧ (∀ t, ¬(t ∈ txs.filter negPred ∧ t ∈ txs.filter lowPred))
    ∧ (∀ t ∈ txs, t.userBalance = none → t ∉ txs.filter negPred ∧ t ∉ txs.filter lowPred)
    ∧ detect_overdrafts txs =
        ⟨(txs.filter negPred).length, (txs.filter lowPred).length,
          nunique ((txs.filter lowPred).map (fun t => t.userId))⟩
    ∧ (detect_overdrafts txs).at_risk_users =
        ((txs.filter lowPred).filterMap (fun t => t.userId)).toFinset.card
    ∧ detect_overdrafts [] = ⟨0, 0, 0⟩ := by
  have hneg : ∀ t, t ∈ txs.filter negPred ↔ t ∈ txs ∧ ∃ b, t.userBalance = some b ∧ b < 0 := by
    intro t
    rw [List.mem_filter, negPred_iff]
  have hlow : ∀ t, t ∈ txs.filter lowPred ↔ t ∈ txs ∧ ∃ b, t.userBalance = some b ∧ 0 ≤ b ∧ b < 10 := by
    intro t
    rw [List.mem_filter, lowPred_iff]
  have hshape : detect_overdrafts txs =
      ⟨(txs.filter negPred).length, (txs.filter lowPred).length,
        nunique ((txs.filter lowPred).map (fun t => t.userId))⟩ := by
    cases txs with
    | nil => rfl
    | cons a as => rfl
  refine ⟨hneg, hlow, ?_, ?_, hshape, ?_, rfl⟩
  · rintro t ⟨h1, h2⟩
    obtain ⟨-, b, hb, hblt⟩ := (hneg t).mp h1
    obtain ⟨-, b2, hb2, hble, -⟩ := (hlow t).mp h2
    rw [hb] at hb2
    cases hb2
    exact absurd (lt_of_le_of_lt hble hblt) (lt_irrefl 0)
  · intro t hmem hnone
    constructor
    · intro h1
      obtain ⟨-, b, hb, -⟩ := (hneg t).mp h1
      rw [hnone] at hb
      cases hb
    · intro h2
      obtain ⟨-, b, hb, -⟩ := (hlow t).mp h2
      rw [hnone] at hb
      cases hb
  · rw [hshape]
    show nunique ((txs.filter lowPred).map (fun t => t.userId)) = _
    unfold nunique
    rw [List.filterMap_map, List.card_toFinset]
    rfl

def w5Neg : Tx :=
  { timestamp := none, datetime := none, session_id := some "s1",
    id := some "t1", type := some "CREDIT", source := none, action := none,
    amount := some 50, vat := none, userBalance := some (-5), userId := some "u1" }

def w5Low : Tx :=
  { timestamp := none, datetime := none, session_id := some "s1",
    id := some "t2", type := some "DEBIT", source := none, action := none,
    amount := some 20, vat := none, userBalance := some 5, userId := some "u2" }

def w5Null : Tx :=
  { timestamp := none, datetime := none, session_id := some "s1",
    id := some "t3", type := none, source := none, action := none,
    amount := some 10, vat := none, userBalance := none, userId := some "u3" }

/-- Witness for C5 at a concrete table: the negative-balance transaction is
selected, the null-balance transaction is in neither set, and the three
reported counts are (1, 1, 1). -/
theorem detect_overdrafts_spec_witness :
    w5Neg ∈ [w5Neg, w5Low, w5Null].filter negPred
    ∧ w5Null ∉ [w5Neg, w5Low, w5Null].filter negPred
    ∧ w5Null ∉ [w5Neg, w5Low, w5Null].filter lowPred
    ∧ detect_overdrafts [w5Neg, w5Low, w5Null] = ⟨1, 1, 1⟩ := by
  have h := detect_overdrafts_spec [w5Neg, w5Low, w5Null]
  have h4 := h.2.2.2.1 w5Null (by decide) (by decide)
  exact ⟨(h.1 w5Neg).mpr ⟨by decide, -5, by decide, by decide⟩, h4.1, h4.2, by decide⟩

/-! ### C6: overdraft flag on the user table -/

theorem foldl_min_mem (a : ℚ) (xs : List ℚ) :
    xs.foldl min a = a ∨ xs.foldl min a ∈ xs := by
  induction xs generalizing a with
  | nil => left; rfl
  | cons x xs ih =>
    simp only [List.foldl_cons]
    rcases ih (min a x) with h | h
    · rcases min_choice a x with hm | hm
      · left; rw [h, hm]
      · right; rw [h, hm]; exact List.mem_cons_self _ _
    · right; exact List.mem_cons_of_mem _ h

theorem foldl_min_le (a : ℚ) (xs : List ℚ) :
    xs.foldl min a ≤ a ∧ ∀ b ∈ xs, xs.foldl min a ≤ b := by
  induction xs generalizing a with
  | nil =>
    refine ⟨le_refl a, ?_⟩
    intro b hb
    cases hb
  | cons x xs ih =>
    simp only [List.foldl_cons]
    obtain ⟨h1, h2⟩ := ih (min a x)
    refine ⟨le_trans h1 (min_le_left _ _), ?_⟩
    intro b hb
    cases hb with
    | head => exact le_trans h1 (min_le_right _ _)
    | tail _ hb2 => exact h2 b hb2

theorem pandasMin_eq_some_iff {l : List ℚ} {m : ℚ} :
    pandasMin l = some m ↔ m ∈ l ∧ ∀ b ∈ l, m ≤ b := by
  cases l with
  | nil => simp [pandasMin]
  | cons x xs =>
    simp only [pandasMin, Option.some_inj]
    constructor
    · rintro rfl
      obtain ⟨h1, h2⟩ := foldl_min_le x xs
      constructor
      · rcases foldl_min_mem x xs with h | h
        · rw [h]; exact List.mem_cons_self _ _
        · exact List.mem_cons_of_mem _ h
      · intro b hb
        cases hb with
        | head => exact h1
        | tail _ hb2 => exact h2 b hb2
    · rintro ⟨hmem, hlb⟩
      obtain ⟨h1, h2⟩ := foldl_min_le x xs
      have hk : xs.foldl min x ∈ x :: xs := by
        rcases foldl_min_mem x xs with h | h
        · rw [h]; exact List.mem_cons_self _ _
        · exact List.mem_cons_of_mem _ h
      have hmk : m ≤ xs.foldl min x := hlb _ hk
      have hkm : xs.foldl min x ≤ m := by
        cases hmem with
        | head => exact h1
        | tail _ hm2 => exact h2 m hm2
      exact le_antisymm hkm hmk

theorem pandasMin_eq_none_iff {l : List ℚ} : pandasMin l = none ↔ l = [] := by
  cases l with
  | nil => simp [pandasMin]
  | cons x xs => simp [pandasMin]

theorem pandasMin_perm {l1 l2 : List ℚ} (h : l1.Perm l2) :
    pandasMin l1 = pandasMin l2 := by
  cases h2 : pandasMin l2 with
  | none =>
    rw [pandasMin_eq_none_iff] at h2 ⊢
    rw [h2] at h
    exact h.eq_nil
  | some m =>
    rw [pandasMin_eq_some_iff] at h2 ⊢
    obtain ⟨hmem, hlb⟩ := h2
    refine ⟨h.mem_iff.mpr hmem, ?_⟩
    intro b hb
    exact hlb b (h.mem_iff.mp hb)

/-- **C6.**  For every row of the user summary table, `overdraft_flag` is
true if and only if `min_balance` is defined and below zero, and
`min_balance` is exactly the pandas minimum (skipping nulls) of the
`userBalance` values of that user's transactions. -/
theorem overdraft_flag_iff (txs : List Tx) (row : UserSummary)
    (hrow : row ∈ analyze_user_patterns txs) :
    (row.overdraft_flag = true ↔ ∃ m, row.min_balance = some m ∧ m < 0)
    ∧ row.min_balance =
        pandasMin ((txs.filter (fun t => t.userId == some row.user_id)).filterMap
          (fun t => t.userBalance)) := by
  simp only [analyze_user_patterns] at hrow
  split at hrow
  · cases hrow
  · obtain ⟨ou, hou, hofu⟩ := List.mem_filterMap.mp hrow
    cases ou with
    | none => cases hofu
    | some uid =>
      simp only at hofu
      split at hofu
      · cases hofu
      · cases hofu
        constructor
        · show (userSummaryFor txs uid).overdraft_flag = true ↔ _
          cases hmb : pandasMin ((sort_values_datetime
              (txs.filter (fun t => t.userId == some uid))).filterMap
              (fun t => t.userBalance)) with
          | none => simp [userSummaryFor, hmb]
          | some m => simp [userSummaryFor, hmb]
        · show (userSummaryFor txs uid).min_balance = _
          show pandasMin _ = _
          exact pandasMin_perm ((List.perm_insertionSort txLE _).filterMap _)

def w6a : Tx :=
  { timestamp := some "2024-01-01T10:00:00.123Z", datetime := some 0,
    session_id := some "s1", id := some "t1", type := some "DEBIT", source := none,
    action := none, amount := some 20, vat := none, userBalance := some (-7),
    userId := some "u1" }

def w6b : Tx :=
  { timestamp := some "2024-01-02T10:00:00.123Z", datetime := some 86400000000000,
    session_id := some "s1", id := some "t2", type := some "CREDIT", source := none,
    action := none, amount := some 50, vat := none, userBalance := some 5,
    userId := some "u1" }

/-- Witness for C6 at a concrete table: user `u1` has balances `-7` and `5`,
so `min_balance = -7 < 0` and the flag is set. -/
theorem overdraft_flag_iff_witness :
    (userSummaryFor [w6a, w6b] "u1").overdraft_flag = true :=
  (overdraft_flag_iff [w6a, w6b] (userSummaryFor [w6a, w6b] "u1")
    (by with_unfolding_all decide)).1.mpr
    ⟨-7, by with_unfolding_all decide, by decide⟩

/-! ### C9: category percentages -/

theorem uniqueFirstAux_mem [DecidableEq α] (seen l : List α) (x : α) :
    x ∈ uniqueFirstAux seen l ↔ x ∈ l ∧ x ∉ seen := by
  induction l generalizing seen with
  | nil => simp [uniqueFirstAux]
  | cons a as ih =>
    simp only [uniqueFirstAux]
    by_cases ha : a ∈ seen
    · rw [if_pos ha, ih]
      by_cases hxa : x = a
      · subst hxa
        simp [ha]
      · simp [hxa]
    · rw [if_neg ha]
      simp only [List.mem_cons, ih]
      by_cases hxa : x = a
      · subst hxa
        simp [ha]
      · simp [hxa]

theorem uniqueFirstAux_nodup [DecidableEq α] (seen l : List α) :
    (uniqueFirstAux seen l).Nodup := by
  induction l generalizing seen with
  | nil => exact List.nodup_nil
  | cons a as ih =>
    simp only [uniqueFirstAux]
    by_cases ha : a ∈ seen
    · rw [if_pos ha]
      exact ih seen
    · rw [if_neg ha]
      refine List.Nodup.cons ?_ (ih (a :: seen))
      intro hmem
      have := (uniqueFirstAux_mem (a :: seen) as a).mp hmem
      exact this.2 (List.mem_cons_self _ _)

theorem uniqueFirst_perm_dedup [DecidableEq α] (l : List α) :
    (uniqueFirst l).Perm l.dedup := by
  unfold uniqueFirst
  rw [List.perm_ext_iff_of_nodup (uniqueFirstAux_nodup [] l) (List.nodup_dedup l)]
  intro a
  rw [uniqueFirstAux_mem, List.mem_dedup]
  simp

theorem sum_div_mul (ps : List (String × Nat)) (T : ℚ) :
    (ps.map (fun p => (p.2 : ℚ) / T * 100)).sum =
      (((ps.map (fun p => p.2)).sum : Nat) : ℚ) / T * 100 := by
  induction ps with
  | nil => simp
  | cons p ps ih =>
    simp only [List.map_cons, List.sum_cons, ih, Nat.cast_add, add_div, add_mul]

theorem value_counts_total (l : List String) :
    ((value_counts l).map (fun p => p.2)).sum = l.length := by
  unfold value_counts
  rw [((List.perm_insertionSort (fun a b => b.2 ≤ a.2)
    ((uniqueFirst l).map (fun c => (c, l.count c)))).map (fun p => p.2)).sum_eq]
  rw [List.map_map]
  have : ((fun p => p.2) ∘ (fun c => (c, l.count c))) = fun c => l.count c := rfl
  rw [this]
  rw [((uniqueFirst_perm_dedup l).map (fun c => l.count c)).sum_eq]
  exact List.sum_map_count_dedup_eq_length l

/-- **C9.**  Each category's percentage is `count / total * 100` with `total`
the count summed over all categories; since the per-category counts of
`value_counts` sum to the number of categorized records, the percentages over
all categories of any non-empty record set sum to exactly 100 in rational
arithmetic. -/
theorem category_percentages_sum (cats : List CatRecord) (h : cats ≠ []) :
    (percentages (value_counts (cats.map (fun c => c.message_category)))).sum = 100 := by
  simp only [percentages]
  rw [sum_div_mul, value_counts_total, List.length_map]
  have hlen : (cats.length : ℚ) ≠ 0 := by
    simp [List.length_eq_zero, h]
  rw [div_self hlen, one_mul]

def w9Rec : CatRecord :=
  { timestamp := none, session_id := none, message_type := some "INFO",
    message := some "hello", datetime := none, message_category := "other" }

/-- Witness for C9 at a concrete non-empty record set. -/
theorem category_percentages_sum_witness :
    (percentages (value_counts ([w9Rec, w9Rec].map (fun c => c.message_category)))).sum = 100 :=
  category_percentages_sum [w9Rec, w9Rec] (by decide)

end CaloLog
